import Mathlib

/-!
Verification of the MediaForge asynchronous task subsystem.

The embedding models the redis task-record store as a partial map from
field names to values, the cloudinary storage and celery queue as explicit
state, and each worker task (src/worker/...) as the ordered list of record
updates it performs.  Machine behaviour is translated from the Python
sources in src/server/main.py and src/worker/.
-/

namespace MediaForge

/-- Redis hash fields used by the system.  Each constructor names one key
written by src/server/main.py or a worker.  The redis key
"compression_ratio" is modelled by the constructor compression_pct. -/
inductive Field where
  | status
  | progress
  | result_url
  | error
  | file_url
  | extracted_pages
  | original_size_kb
  | compressed_size_kb
  | compression_pct
  | format
  | quality
deriving DecidableEq

/-- A redis value: workers write either literal strings (status, urls,
error text) or stringified numbers; numeric writes are kept as integers. -/
inductive Val where
  | vStr (s : String)
  | vInt (z : Int)
deriving DecidableEq

/-- A task record: the redis hash for one task id (absent fields are none). -/
def TaskRec : Type := Field → Option Val

/-- One hset call with a field/value mapping: later reads see the new
values for the given fields and the previous values elsewhere (redis HSET
merge semantics). -/
def hset (r : TaskRec) (u : List (Field × Val)) : TaskRec :=
  fun f =>
    match u.lookup f with
    | some v => some v
    | none => r f

/-- The empty record (unknown task id: hgetall returns an empty hash). -/
def emptyRec : TaskRec := fun _ => none

/-- The record written at submission: hset(task_id, {status: queued,
progress: 0}) in create_task / merge_pdfs (src/server/main.py). -/
def initRec : TaskRec :=
  hset emptyRec [(Field.status, Val.vStr "queued"), (Field.progress, Val.vInt 0)]

/-- An update batch, as passed to one hset call. -/
abbrev Update : Type := List (Field × Val)

/-- Apply a sequence of hset calls to a record. -/
def applyUpdates (r : TaskRec) (us : List Update) : TaskRec :=
  us.foldl hset r

/-- All record states observable while a sequence of hset calls runs:
the initial record and the record after each call. -/
def traceFrom (r : TaskRec) (us : List Update) : List TaskRec :=
  us.scanl hset r

/- ----------------------------------------------------------------
   Retention sweep (cleanup_cloudinary, src/server/main.py lines 311-359)
   ---------------------------------------------------------------- -/

/-- One stored cloudinary artifact as returned by the resources listing:
a public id (deletion handle) and a secure url (locator). -/
structure StoredResource where
  publicId : String
  secureUrl : String
deriving DecidableEq

/-- Python: data.get("file_url") or data.get("result_url"), with the
subsequent truthiness test on the result; an absent key or empty string is
falsy. -/
def valString : Option Val → Option String
  | some (Val.vStr s) => some s
  | some (Val.vInt z) => some (toString z)
  | none => none

/-- Drop falsy (empty) strings, as the Python truthiness tests do. -/
def truthy : Option String → Option String
  | some s => if s = "" then none else some s
  | none => none

/-- The url the sweep associates with one task record:
file_url if present and non-empty, else result_url. -/
def taskUrl (r : TaskRec) : Option String :=
  match truthy (valString (r Field.file_url)) with
  | some s => some s
  | none => truthy (valString (r Field.result_url))

/-- Python: status in ["queued", "in_progress"].  Note the literal
"in_progress": the workers only ever write "processing". -/
def preserveStatus (r : TaskRec) : Bool :=
  (r Field.status == some (Val.vStr "queued")) ||
    (r Field.status == some (Val.vStr "in_progress"))

/-- The urls_to_preserve set computed by the sweep over all task records. -/
def urlsToPreserve (tasks : List TaskRec) : List String :=
  tasks.filterMap (fun r => if preserveStatus r then taskUrl r else none)

/-- The public ids the sweep destroys: every stored artifact whose secure
url is not in the preserved set (the folder loops in the source apply the
same test to each listed resource, so they are modelled as one listing). -/
def cleanupDeleted (tasks : List TaskRec) (resources : List StoredResource) :
    List String :=
  resources.filterMap (fun res =>
    if res.secureUrl ∈ urlsToPreserve tasks then none else some res.publicId)

/-- The record of a task a compress worker has picked up: the worker's
first update hset(task_id, {status: processing, progress: 5})
(src/worker/image/compress.py line 152). -/
def processingRec : TaskRec :=
  hset initRec [(Field.status, Val.vStr "processing"), (Field.progress, Val.vInt 5)]

/-- The same record with a hypothetical file_url field, to show the sweep
drops processing tasks even if the record carried its source locator. -/
def processingRecWithUrl : TaskRec :=
  hset processingRec [(Field.file_url, Val.vStr "https://res.example/orig1")]

/- ----------------------------------------------------------------
   Cancel (cancel_task, src/server/main.py lines 258-276)
   ---------------------------------------------------------------- -/

/-- Outcome of DELETE /task/{id}: 404, 400, or success. -/
inductive CancelOutcome where
  | notFound
  | invalidState
  | cancelled
deriving DecidableEq

/-- cancel_task: 404 when hgetall finds nothing; 400 when the stored
status is completed or failed; otherwise revoke the celery task and
hset(task_id, "status", "cancelled"). -/
def cancel_task (r : Option TaskRec) : CancelOutcome × Option TaskRec :=
  match r with
  | none => (CancelOutcome.notFound, none)
  | some tr =>
    if tr Field.status = some (Val.vStr "completed") ∨
        tr Field.status = some (Val.vStr "failed") then
      (CancelOutcome.invalidState, some tr)
    else
      (CancelOutcome.cancelled, some (hset tr [(Field.status, Val.vStr "cancelled")]))

/- ----------------------------------------------------------------
   Submission service (create_task and the endpoints, src/server/main.py)
   ---------------------------------------------------------------- -/

/-- Python str.startswith, computed on the underlying character lists so
the kernel can evaluate it (String.startsWith is byte-level and does not
reduce definitionally). -/
def strStartsWith (s pre : String) : Bool := pre.data.isPrefixOf s.data

/-- Python str.upper / Lean String.toUpper, computed characterwise. -/
def strToUpper (s : String) : String := ⟨s.data.map Char.toUpper⟩

/-- Python str.lower / Lean String.toLower, computed characterwise. -/
def strToLower (s : String) : String := ⟨s.data.map Char.toLower⟩

/-- API error as surfaced by HTTPException: 400-class validation errors
versus 500-class upstream (storage or queue) failures. -/
inductive ApiError where
  | validation (msg : String)
  | upstream (msg : String)
deriving DecidableEq

/-- Observable side-effect state of the submission service: the id
generator (uuid4 modelled as a counter), the artifacts stored in
cloudinary, the jobs pushed to celery, and the redis task records. -/
structure SubmitState where
  nextId : Nat
  uploads : List String
  queue : List (String × String)
  store : List (String × TaskRec)

/-- The task id minted for the n-th submission. -/
def freshTaskId (n : Nat) : String := "task-" ++ toString n

/-- Whether the two upstream collaborator calls of create_task succeed. -/
structure UpstreamEnv where
  uploadOk : Bool
  enqueueOk : Bool

/-- create_task (src/server/main.py lines 38-72): mint a task id, upload
the payload, send the celery task, and only then hset the queued record.
Any upstream failure raises and is surfaced as HTTP 500; the record write
never happens on a failure path. -/
def create_task (env : UpstreamEnv) (taskName : String) (s : SubmitState) :
    Except ApiError String × SubmitState :=
  let tid := freshTaskId s.nextId
  let s1 : SubmitState := { s with nextId := s.nextId + 1 }
  if env.uploadOk then
    let url := "cloud/originals/" ++ tid
    let s2 : SubmitState := { s1 with uploads := s1.uploads ++ [url] }
    if env.enqueueOk then
      let s3 : SubmitState := { s2 with queue := s2.queue ++ [(taskName, tid)] }
      (Except.ok tid, { s3 with store := s3.store ++ [(tid, initRec)] })
    else
      (Except.error (ApiError.upstream "Upload or task failed"), s2)
  else
    (Except.error (ApiError.upstream "Upload or task failed"), s1)

/-- POST /image/compress: content type and quality are validated before
create_task runs. -/
def compress_image (env : UpstreamEnv) (contentType : String) (quality : Int)
    (s : SubmitState) : Except ApiError String × SubmitState :=
  if ¬ strStartsWith contentType "image/" then
    (Except.error (ApiError.validation "File must be an image"), s)
  else if quality < 1 ∨ quality > 100 then
    (Except.error (ApiError.validation "Quality must be between 1 and 100"), s)
  else
    create_task env "image.compress" s

/-- POST /image/resize: dimensions are validated before create_task runs. -/
def resize_image (env : UpstreamEnv) (contentType : String) (width height : Int)
    (s : SubmitState) : Except ApiError String × SubmitState :=
  if ¬ strStartsWith contentType "image/" then
    (Except.error (ApiError.validation "File must be an image"), s)
  else if width ≤ 0 ∨ height ≤ 0 then
    (Except.error (ApiError.validation "Width and height must be positive"), s)
  else
    create_task env "image.resize" s

/-- The format whitelist of POST /image/convert. -/
def validFormats : List String := ["jpg", "jpeg", "png", "webp", "bmp", "tiff", "gif"]

/-- POST /image/convert: content type and target format are validated
before create_task runs; the format is lowercased for the check and for
the job parameter. -/
def convert_image (env : UpstreamEnv) (contentType targetFormat : String)
    (s : SubmitState) : Except ApiError String × SubmitState :=
  if ¬ strStartsWith contentType "image/" then
    (Except.error (ApiError.validation "File must be an image"), s)
  else if ¬ strToLower targetFormat ∈ validFormats then
    (Except.error (ApiError.validation "Invalid format"), s)
  else
    create_task env "image.convert" s

/-- The per-file upload loop of POST /pdf/merge: files are uploaded left
to right, the i-th upload succeeding when oks i; the first failure raises,
leaving the artifacts already uploaded in storage. -/
def mergeUploadLoop (oks : Nat → Bool) : Nat → Nat → Except ApiError (List String) × List String
  | 0, _ => (Except.ok [], [])
  | n + 1, i =>
    if oks i then
      let url := "cloud/originals/merge-" ++ toString i
      match mergeUploadLoop oks n (i + 1) with
      | (Except.ok urls, stored) => (Except.ok (url :: urls), url :: stored)
      | (Except.error e, stored) => (Except.error e, url :: stored)
    else
      (Except.error (ApiError.upstream "Upload or task failed"), [])

/-- POST /pdf/merge (src/server/main.py lines 177-217): the file count and
content types are validated before the task id is minted; then all files
are uploaded, one job is enqueued, and only then the queued record is
written. -/
def merge_pdfs (oks : Nat → Bool) (enqueueOk : Bool) (contentTypes : List String)
    (s : SubmitState) : Except ApiError String × SubmitState :=
  if contentTypes.length < 2 then
    (Except.error (ApiError.validation "At least 2 PDF files are required for merging"), s)
  else if contentTypes.any (fun c => !(c == "application/pdf")) then
    (Except.error (ApiError.validation "All files must be PDFs"), s)
  else
    let tid := freshTaskId s.nextId
    let s1 : SubmitState := { s with nextId := s.nextId + 1 }
    match mergeUploadLoop oks contentTypes.length 0 with
    | (Except.ok _, stored) =>
      let s2 : SubmitState := { s1 with uploads := s1.uploads ++ stored }
      if enqueueOk then
        let s3 : SubmitState := { s2 with queue := s2.queue ++ [("pdf.merge", tid)] }
        (Except.ok tid, { s3 with store := s3.store ++ [(tid, initRec)] })
      else
        (Except.error (ApiError.upstream "Upload or task failed"), s2)
    | (Except.error e, stored) =>
      (Except.error e, { s1 with uploads := s1.uploads ++ stored })

/- ----------------------------------------------------------------
   Transform executors: the record updates each worker performs
   ---------------------------------------------------------------- -/

/-- First update of every worker: hset(task_id, {status: processing,
progress: p}). -/
def procUpdate (p : Int) : Update :=
  [(Field.status, Val.vStr "processing"), (Field.progress, Val.vInt p)]

/-- Intermediate checkpoint: hset(task_id, "progress", p). -/
def progUpdate (p : Int) : Update :=
  [(Field.progress, Val.vInt p)]

/-- The exception handler shared by every worker: hset(task_id,
{status: failed, error: str(e)}). -/
def failUpdate (msg : String) : Update :=
  [(Field.status, Val.vStr "failed"), (Field.error, Val.vStr msg)]

/-- Completion update of resize / convert / pdf compress / merge:
hset(task_id, {status: completed, progress: 100, result_url: url}). -/
def completeUpdate (url : String) : Update :=
  [(Field.status, Val.vStr "completed"), (Field.progress, Val.vInt 100),
    (Field.result_url, Val.vStr url)]

/-- Outcome of one executor run: success with the uploaded result url, or
an exception after k fallible steps (clamped to the checkpoint count), in
which case the shared handler writes the failed record. -/
inductive ExecOutcome where
  | ok (resultUrl : String)
  | fail (stepsDone : Nat) (msg : String)

/-- Skeleton shared by the fixed-checkpoint workers: all checkpoints then
the completion update on success; the checkpoints reached then the failure
update on an exception. -/
def runUpdates (checkpoints : List Update) (mkDone : String → Update) :
    ExecOutcome → List Update
  | ExecOutcome.ok url => checkpoints ++ [mkDone url]
  | ExecOutcome.fail k msg =>
    checkpoints.take (min (max k 1) checkpoints.length) ++ [failUpdate msg]

/-- Progress checkpoints of compress_image_task
(src/worker/image/compress.py). -/
def compressCheckpoints : List Update :=
  [procUpdate 5, progUpdate 15, progUpdate 25, progUpdate 35, progUpdate 55,
    progUpdate 75, progUpdate 85]

/-- Completion update of compress_image_task: status, progress and result
url together with the job metadata, in one hset mapping. -/
def compressDoneUpdate (url osz csz pct fmt : String) (q : Int) : Update :=
  [(Field.status, Val.vStr "completed"), (Field.progress, Val.vInt 100),
    (Field.result_url, Val.vStr url), (Field.original_size_kb, Val.vStr osz),
    (Field.compressed_size_kb, Val.vStr csz), (Field.compression_pct, Val.vStr pct),
    (Field.format, Val.vStr fmt), (Field.quality, Val.vInt q)]

/-- The record updates of one compress_image_task run. -/
def compressUpdates (osz csz pct fmt : String) (q : Int) : ExecOutcome → List Update :=
  runUpdates compressCheckpoints (fun url => compressDoneUpdate url osz csz pct fmt q)

/-- Progress checkpoints of resize_image_task (src/worker/image/resize.py). -/
def resizeCheckpoints : List Update :=
  [procUpdate 10, progUpdate 30, progUpdate 50, progUpdate 70, progUpdate 85]

/-- The record updates of one resize_image_task run. -/
def resizeUpdates : ExecOutcome → List Update :=
  runUpdates resizeCheckpoints completeUpdate

/-- Progress checkpoints of convert_image_task (src/worker/image/convert.py). -/
def convertCheckpoints : List Update :=
  [procUpdate 10, progUpdate 30, progUpdate 60, progUpdate 80]

/-- The record updates of one convert_image_task run. -/
def convertUpdates : ExecOutcome → List Update :=
  runUpdates convertCheckpoints completeUpdate

/-- Progress checkpoints of compress_pdf_task (src/worker/pdf/compress.py). -/
def pdfCompressCheckpoints : List Update :=
  [procUpdate 10, progUpdate 30, progUpdate 50, progUpdate 70, progUpdate 85]

/-- The record updates of one compress_pdf_task run. -/
def pdfCompressUpdates : ExecOutcome → List Update :=
  runUpdates pdfCompressCheckpoints completeUpdate

/- ----------------------------------------------------------------
   pdf.extract (src/worker/pdf/extract.py)
   ---------------------------------------------------------------- -/

/-- The ValueError message raised on an invalid page range. -/
def extractErrMsg (total s e : Int) : String :=
  "Invalid page range. PDF has " ++ toString total ++ " pages. Requested: " ++
    toString s ++ "-" ++ toString e

/-- Completion update of extract_pdf_pages_task: status, progress, result
url and the extracted_pages metadata in one hset mapping. -/
def extractDoneUpdate (url : String) (s e : Int) : Update :=
  [(Field.status, Val.vStr "completed"), (Field.progress, Val.vInt 100),
    (Field.result_url, Val.vStr url),
    (Field.extracted_pages, Val.vStr (toString s ++ "-" ++ toString e))]

/-- The document built by the extraction loop: for page_num in
range(start_page - 1, end_page - 1 + 1), insert page page_num of the
source (0-based indexing after the conversion in the source). -/
def extractedDoc (pages : List Nat) (s e : Int) : List Nat :=
  (List.range' (s - 1).toNat (e + 1 - s).toNat).filterMap (fun i => pages[i]?)

/-- The record updates of one extract_pdf_pages_task run.  pages = none
models a download or open failure; otherwise the worker first transitions
to processing (10), downloads (30), and only then validates the 1-based
inclusive range against the page count; uploadOk covers the
save-and-upload tail. -/
def extractUpdates (pdf : Option (List Nat)) (s e : Int) (uploadOk : Bool)
    (url dlMsg upMsg : String) : List Update :=
  match pdf with
  | none => [procUpdate 10, failUpdate dlMsg]
  | some pages =>
    if s < 1 ∨ e > (pages.length : Int) ∨ s > e then
      [procUpdate 10, progUpdate 30,
        failUpdate (extractErrMsg (pages.length : Int) s e)]
    else if uploadOk then
      [procUpdate 10, progUpdate 30, progUpdate 50, progUpdate 75, progUpdate 90,
        extractDoneUpdate url s e]
    else
      [procUpdate 10, progUpdate 30, progUpdate 50, progUpdate 75, progUpdate 90,
        failUpdate upMsg]

/- ----------------------------------------------------------------
   pdf.merge (src/worker/pdf/merge.py)
   ---------------------------------------------------------------- -/

/-- The progress value written after inserting the i-th of n sources:
int(10 + i * (70 / n)), with progress_per_pdf = 70 / total computed once.
The source computes in floating point; the model uses exact rationals,
which agrees except for values one below due to float rounding (e.g.
n = 3 gives 79 in binary floating point and 80 here) and never affects
monotonicity or the bounds. -/
def mergeProgress (n i : Nat) : Int :=
  ⌊(10 : ℚ) + (i : ℚ) * (70 / (n : ℚ))⌋

/-- The progress writes of the merge loop after k sources were inserted. -/
def mergeLoopUpdates (n k : Nat) : List Update :=
  (List.range k).map (fun i => progUpdate (mergeProgress n (i + 1)))

/-- Outcome of one merge_pdf_task run: success, a download failure at the
k-th source (clamped: at most n - 1 sources were inserted before it), or
an upload failure after the loop. -/
inductive MergeOutcome where
  | ok (url : String)
  | failDownload (k : Nat) (msg : String)
  | failUpload (msg : String)

/-- The record updates of one merge_pdf_task run on n sources: processing
(10), the ValueError when n < 2, otherwise the per-source progress writes,
85, 90 and the completion update (or the failure update). -/
def mergeUpdates (n : Nat) : MergeOutcome → List Update
  | MergeOutcome.ok url =>
    if n < 2 then
      [procUpdate 10, failUpdate "At least 2 PDF files are required for merging"]
    else
      [procUpdate 10] ++ mergeLoopUpdates n n ++
        [progUpdate 85, progUpdate 90, completeUpdate url]
  | MergeOutcome.failDownload k msg =>
    if n < 2 then
      [procUpdate 10, failUpdate "At least 2 PDF files are required for merging"]
    else
      [procUpdate 10] ++ mergeLoopUpdates n (min k (n - 1)) ++ [failUpdate msg]
  | MergeOutcome.failUpload msg =>
    if n < 2 then
      [procUpdate 10, failUpdate "At least 2 PDF files are required for merging"]
    else
      [procUpdate 10] ++ mergeLoopUpdates n n ++
        [progUpdate 85, progUpdate 90, failUpdate msg]

/- ----------------------------------------------------------------
   image.convert mode handling (src/worker/image/convert.py lines 38-42)
   ---------------------------------------------------------------- -/

/-- The mode the image is in when it reaches image.save: convert to RGB
when the target is JPEG and the mode is RGBA or P; convert to RGBA when
the target is PNG and the mode is not RGBA; otherwise leave the mode
alone.  The target format arrives lowercased from the server and is
uppercased for the comparison. -/
def convertMode (targetFormat mode : String) : String :=
  if strToUpper targetFormat = "JPEG" ∧ (mode = "RGBA" ∨ mode = "P") then "RGB"
  else if strToUpper targetFormat = "PNG" ∧ ¬ mode = "RGBA" then "RGBA"
  else mode

/-- Modelled from the spec (claim vocabulary, not source): the formats the
spec calls alpha-capable among the server's whitelist. -/
def specAlphaCapable (fmt : String) : Bool :=
  fmt ∈ ["png", "webp", "tiff", "gif"]

/-- Modelled from the spec (claim vocabulary, not source): whether a PIL
mode string carries an alpha channel. -/
def specModeHasAlpha (mode : String) : Bool :=
  mode ∈ ["RGBA", "LA", "PA"]

/- ----------------------------------------------------------------
   image.compress target-size retry loop
   (src/worker/image/compress.py lines 221-236)
   ---------------------------------------------------------------- -/

/-- The compressed size (in KB) produced at a given quality, as an oracle
standing for the codec re-encoding in the loop body. -/
def SizeOracle : Type := Int → ℚ

/-- The while loop: while compressed_size_kb > target and quality > 30
and attempts > 0: quality -= 15; re-encode; attempts -= 1.  Returns the
final quality, the final compressed size, and the number of re-encoding
attempts performed. -/
def compressLoop (sizeAt : SizeOracle) (target : ℚ) : Nat → Int → ℚ → Int × ℚ × Nat
  | 0, q, sz => (q, sz, 0)
  | n + 1, q, sz =>
    if target < sz ∧ 30 < q then
      let q2 := q - 15
      let out := compressLoop sizeAt target n q2 (sizeAt q2)
      (out.1, out.2.1, out.2.2 + 1)
    else
      (q, sz, 0)

/-- The guard around the loop: it only runs when a target size was given
(and is truthy), the first attempt exceeded it, and quality is above the
floor; the attempt budget is fixed at 3. -/
def targetAdjust (sizeAt : SizeOracle) (target : Option ℚ) (q : Int) (sz : ℚ) :
    Int × ℚ × Nat :=
  match target with
  | none => (q, sz, 0)
  | some t =>
    if ¬ t = 0 ∧ t < sz ∧ 30 < q then compressLoop sizeAt t 3 q sz
    else (q, sz, 0)

/-- The compressed size observed before the j-th re-encoding check: the
initial size at j = 0, afterwards the oracle at the j-th reduced quality. -/
def stepSize (sizeAt : SizeOracle) (q : Int) (sz : ℚ) : Nat → ℚ
  | 0 => sz
  | j + 1 => sizeAt (q - 15 * ((j : Int) + 1))

/- ----------------------------------------------------------------
   Progress sequences and reachability
   ---------------------------------------------------------------- -/

/-- The progress values a sequence of updates writes, in order. -/
def writtenProgress (us : List Update) : List Int :=
  us.filterMap (fun u =>
    match u.lookup Field.progress with
    | some (Val.vInt z) => some z
    | _ => none)

/-- Records of a resize task observable through the broker's at-least-once
delivery: the freshly queued record, and the result of re-running the
executor (with any outcome) on a record it left behind. -/
inductive ReachableResize : TaskRec → Prop where
  | init : ReachableResize initRec
  | rerun (r : TaskRec) (o : ExecOutcome) (h : ReachableResize r) :
      ReachableResize (applyUpdates r (resizeUpdates o))

/-- The record left by a completed resize run that the broker redelivers
(visibility-timeout expiry) and whose re-run fails at the download step. -/
def rerunRec : TaskRec :=
  applyUpdates (applyUpdates initRec (resizeUpdates (ExecOutcome.ok "cloud/resized/r1")))
    (resizeUpdates (ExecOutcome.fail 1 "download error"))

/-- The invalid-range extract trace of the spec scenario
extract(start_page = 5, end_page = 3) on a 5-page document. -/
def extractBadTrace : List TaskRec :=
  traceFrom initRec (extractUpdates (some [1, 2, 3, 4, 5]) 5 3 true "u" "dl" "up")

/- ================================================================
   Theorems
   ================================================================ -/

/-- A field not mentioned in an hset mapping keeps its previous value. -/
theorem hset_of_lookup_none {r : TaskRec} {u : Update} {f : Field}
    (h : u.lookup f = none) : hset r u f = r f := by
  simp [hset, h]

/-- A field absent initially and absent from every update of a run is
absent in every record of the run's trace. -/
theorem traceFrom_field_none (f : Field) :
    ∀ (us : List Update) (r0 : TaskRec), r0 f = none →
      (∀ u ∈ us, u.lookup f = none) → ∀ r ∈ traceFrom r0 us, r f = none := by
  intro us
  induction us with
  | nil =>
    intro r0 h0 _ r hr
    simp only [traceFrom, List.scanl_nil, List.mem_singleton] at hr
    exact hr ▸ h0
  | cons u us ih =>
    intro r0 h0 hu r hr
    simp only [traceFrom, List.scanl_cons, List.singleton_append, List.mem_cons] at hr
    rcases hr with hr | hr
    · exact hr ▸ h0
    · exact ih (hset r0 u)
        (by rw [hset_of_lookup_none (hu u (List.mem_cons_self u us))]; exact h0)
        (fun v hv => hu v (List.mem_cons_of_mem u hv)) r hr

/-- C1.  The retention sweep of DELETE /cleanup/cloudinary deletes the
stored source artifact of a task whose record says status "processing":
the preservation test compares against the literal "in_progress", which no
component ever writes, and no record ever stores a file_url field, so the
preserved set is empty — even for a record that hypothetically carried its
source locator, and even for a freshly queued record.  This contradicts
the endpoint's own docstring ("except for those still being processed")
and the spec, which both require queued/processing artifacts to survive. -/
theorem C1_sweep_deletes_processing_artifact :
    urlsToPreserve [processingRec] = [] ∧
    cleanupDeleted [processingRec]
      [⟨"orig1", "https://res.example/orig1"⟩] = ["orig1"] ∧
    urlsToPreserve [processingRecWithUrl] = [] ∧
    cleanupDeleted [processingRecWithUrl]
      [⟨"orig1", "https://res.example/orig1"⟩] = ["orig1"] ∧
    urlsToPreserve [initRec] = [] := by
  decide

/-- C2 counterexample.  Cancelling twice: the second cancel of an
already-cancelled task succeeds again instead of failing with
InvalidState, because only "completed" and "failed" are rejected. -/
theorem C2_second_cancel_succeeds :
    (cancel_task ((cancel_task (some initRec)).2)).1 = CancelOutcome.cancelled ∧
    ¬ (cancel_task ((cancel_task (some initRec)).2)).1 = CancelOutcome.invalidState := by
  decide

/-- C2 amended.  cancel fails with NotFound exactly on a missing record,
with InvalidState exactly when the status is "completed" or "failed", and
otherwise sets status "cancelled"; a second cancel of a cancelled task
therefore succeeds again (idempotently), rather than returning
InvalidState. -/
theorem C2_cancel_characterization : ∀ tr : TaskRec,
    (cancel_task none).1 = CancelOutcome.notFound ∧
    ((cancel_task (some tr)).1 = CancelOutcome.invalidState ↔
      (tr Field.status = some (Val.vStr "completed") ∨
        tr Field.status = some (Val.vStr "failed"))) ∧
    (¬ (tr Field.status = some (Val.vStr "completed") ∨
        tr Field.status = some (Val.vStr "failed")) →
      ∃ tr2, cancel_task (some tr) = (CancelOutcome.cancelled, some tr2) ∧
        tr2 Field.status = some (Val.vStr "cancelled") ∧
        (cancel_task (some tr2)).1 = CancelOutcome.cancelled) := by
  intro tr
  refine ⟨rfl, ?_, ?_⟩
  · simp only [cancel_task]
    split_ifs with h
    · simp [h]
    · simp [h]
  · intro h
    refine ⟨hset tr [(Field.status, Val.vStr "cancelled")], ?_, rfl, ?_⟩
    · simp only [cancel_task]
      rw [if_neg h]
    · simp only [cancel_task, hset]
      rw [if_neg (by simp [List.lookup])]

/-- C2 witness: a concrete queued record is cancelled, the stored status
becomes "cancelled", and cancelling again still succeeds. -/
theorem C2_cancel_witness :
    (cancel_task none).1 = CancelOutcome.notFound ∧
    ∃ tr2, cancel_task (some initRec) = (CancelOutcome.cancelled, some tr2) ∧
      tr2 Field.status = some (Val.vStr "cancelled") ∧
      (cancel_task (some tr2)).1 = CancelOutcome.cancelled :=
  ⟨(C2_cancel_characterization initRec).1,
    (C2_cancel_characterization initRec).2.2 (by decide)⟩

/-- C3.  Submissions write the queued record only after a successful
enqueue: any upstream failure surfaces as UpstreamError with the record
store untouched, and a returned task id comes with both the queued record
and the corresponding queue job; likewise for the multi-file merge
endpoint. -/
theorem C3_record_only_after_enqueue :
    (∀ (env : UpstreamEnv) (nm : String) (s : SubmitState) (e : ApiError),
      (create_task env nm s).1 = Except.error e →
        (create_task env nm s).2.store = s.store ∧
          e = ApiError.upstream "Upload or task failed") ∧
    (∀ (env : UpstreamEnv) (nm : String) (s : SubmitState),
      ¬ (env.uploadOk = true ∧ env.enqueueOk = true) →
        (create_task env nm s).1 =
          Except.error (ApiError.upstream "Upload or task failed")) ∧
    (∀ (env : UpstreamEnv) (nm : String) (s : SubmitState) (tid : String),
      (create_task env nm s).1 = Except.ok tid →
        (create_task env nm s).2.store = s.store ++ [(tid, initRec)] ∧
          (create_task env nm s).2.queue = s.queue ++ [(nm, tid)]) ∧
    (∀ (oks : Nat → Bool) (enq : Bool) (cts : List String) (s : SubmitState)
        (e : ApiError),
      (merge_pdfs oks enq cts s).1 = Except.error e →
        (merge_pdfs oks enq cts s).2.store = s.store) ∧
    (∀ (oks : Nat → Bool) (enq : Bool) (cts : List String) (s : SubmitState)
        (tid : String),
      (merge_pdfs oks enq cts s).1 = Except.ok tid →
        (merge_pdfs oks enq cts s).2.store = s.store ++ [(tid, initRec)] ∧
          (merge_pdfs oks enq cts s).2.queue = s.queue ++ [("pdf.merge", tid)]) := by
  refine ⟨?_, ?_, ?_, ?_, ?_⟩
  · rintro ⟨up, enq⟩ nm s e he
    cases up <;> cases enq <;> simp_all [create_task]
  · rintro ⟨up, enq⟩ nm s h
    cases up <;> cases enq <;> simp_all [create_task]
  · rintro ⟨up, enq⟩ nm s tid h
    cases up <;> cases enq <;> simp_all [create_task]
  · intro oks enq cts s e he
    simp only [merge_pdfs] at he ⊢
    by_cases h1 : cts.length < 2
    · rw [if_pos h1] at he ⊢
    · rw [if_neg h1] at he ⊢
      by_cases h2 : (cts.any fun c => !(c == "application/pdf")) = true
      · rw [if_pos h2] at he ⊢
      · rw [if_neg h2] at he ⊢
        revert he
        rcases mergeUploadLoop oks cts.length 0 with ⟨res, stored⟩
        cases res with
        | ok urls => cases enq <;> intro he <;> simp_all
        | error e2 => intro he; simp
  · intro oks enq cts s tid h
    simp only [merge_pdfs] at h ⊢
    by_cases h1 : cts.length < 2
    · rw [if_pos h1] at h; exact absurd h (by simp)
    · rw [if_neg h1] at h ⊢
      by_cases h2 : (cts.any fun c => !(c == "application/pdf")) = true
      · rw [if_pos h2] at h; exact absurd h (by simp)
      · rw [if_neg h2] at h ⊢
        revert h
        rcases mergeUploadLoop oks cts.length 0 with ⟨res, stored⟩
        cases res with
        | ok urls =>
          cases enq with
          | false => intro h; exact absurd h (by simp)
          | true =>
            intro h
            simp only [if_true, reduceIte, Except.ok.injEq] at h
            subst h
            simp
        | error e2 => intro h; exact absurd h (by simp)

/-- C3 witness: with a failing queue the compress submission returns the
upstream error and writes no record; with both collaborators up it
returns the fresh id with the queued record stored and the job enqueued. -/
theorem C3_witness :
    (create_task ⟨true, false⟩ "image.compress" ⟨0, [], [], []⟩).1 =
      Except.error (ApiError.upstream "Upload or task failed") ∧
    (create_task ⟨true, false⟩ "image.compress" ⟨0, [], [], []⟩).2.store = [] ∧
    (create_task ⟨true, true⟩ "image.compress" ⟨0, [], [], []⟩).2.store =
      [("task-0", initRec)] ∧
    (create_task ⟨true, true⟩ "image.compress" ⟨0, [], [], []⟩).2.queue =
      [("image.compress", "task-0")] := by
  refine ⟨?_, ?_, ?_, ?_⟩
  · exact C3_record_only_after_enqueue.2.1 ⟨true, false⟩ "image.compress"
      ⟨0, [], [], []⟩ (by simp)
  · exact (C3_record_only_after_enqueue.1 ⟨true, false⟩ "image.compress"
      ⟨0, [], [], []⟩ (ApiError.upstream "Upload or task failed") rfl).1
  · exact (C3_record_only_after_enqueue.2.2.1 ⟨true, true⟩ "image.compress"
      ⟨0, [], [], []⟩ "task-0" rfl).1
  · exact (C3_record_only_after_enqueue.2.2.1 ⟨true, true⟩ "image.compress"
      ⟨0, [], [], []⟩ "task-0" rfl).2

/-- C4.  Each submission endpoint rejects invalid parameters before any
side effect: the returned state is exactly the incoming state, so no task
id was minted, nothing was uploaded, nothing was enqueued and no record
was written. -/
theorem C4_validation_has_no_side_effects :
    (∀ (env : UpstreamEnv) (ct : String) (q : Int) (s : SubmitState),
      strStartsWith ct "image/" = true → (q < 1 ∨ q > 100) →
        compress_image env ct q s =
          (Except.error (ApiError.validation "Quality must be between 1 and 100"), s)) ∧
    (∀ (env : UpstreamEnv) (ct : String) (q : Int) (s : SubmitState),
      strStartsWith ct "image/" = false →
        compress_image env ct q s =
          (Except.error (ApiError.validation "File must be an image"), s)) ∧
    (∀ (env : UpstreamEnv) (ct : String) (w h : Int) (s : SubmitState),
      strStartsWith ct "image/" = true → (w ≤ 0 ∨ h ≤ 0) →
        resize_image env ct w h s =
          (Except.error (ApiError.validation "Width and height must be positive"), s)) ∧
    (∀ (env : UpstreamEnv) (ct fmt : String) (s : SubmitState),
      strStartsWith ct "image/" = true → ¬ strToLower fmt ∈ validFormats →
        convert_image env ct fmt s =
          (Except.error (ApiError.validation "Invalid format"), s)) ∧
    (∀ (oks : Nat → Bool) (enq : Bool) (cts : List String) (s : SubmitState),
      cts.length < 2 →
        merge_pdfs oks enq cts s =
          (Except.error (ApiError.validation
            "At least 2 PDF files are required for merging"), s)) ∧
    (∀ (oks : Nat → Bool) (enq : Bool) (cts : List String) (s : SubmitState)
        (c : String),
      c ∈ cts → ¬ c = "application/pdf" → ∃ msg,
        merge_pdfs oks enq cts s = (Except.error (ApiError.validation msg), s)) := by
  refine ⟨?_, ?_, ?_, ?_, ?_, ?_⟩
  · intro env ct q s h1 h2
    simp only [compress_image, h1]
    rw [if_neg (by simp), if_pos h2]
  · intro env ct q s h1
    simp only [compress_image, h1]
    rw [if_pos (by simp [h1])]
  · intro env ct w h s h1 h2
    simp only [resize_image, h1]
    rw [if_neg (by simp), if_pos h2]
  · intro env ct fmt s h1 h2
    simp only [convert_image, h1]
    rw [if_neg (by simp), if_pos h2]
  · intro oks enq cts s h
    simp only [merge_pdfs]
    rw [if_pos h]
  · intro oks enq cts s c hc hne
    simp only [merge_pdfs]
    by_cases h1 : cts.length < 2
    · rw [if_pos h1]
      exact ⟨"At least 2 PDF files are required for merging", rfl⟩
    · rw [if_neg h1]
      have h2 : (cts.any fun c => !(c == "application/pdf")) = true := by
        simp only [List.any_eq_true]
        exact ⟨c, hc, by simp [hne]⟩
      rw [if_pos h2]
      exact ⟨"All files must be PDFs", rfl⟩

/-- C4 witness: a 1-file merge and an out-of-range quality are rejected
with the incoming state returned unchanged. -/
theorem C4_witness :
    merge_pdfs (fun _ => true) true ["application/pdf"] ⟨0, [], [], []⟩ =
      (Except.error (ApiError.validation
        "At least 2 PDF files are required for merging"), ⟨0, [], [], []⟩) ∧
    compress_image ⟨true, true⟩ "image/png" 101 ⟨0, [], [], []⟩ =
      (Except.error (ApiError.validation "Quality must be between 1 and 100"),
        ⟨0, [], [], []⟩) :=
  ⟨C4_validation_has_no_side_effects.2.2.2.2.1 (fun _ => true) true
      ["application/pdf"] ⟨0, [], [], []⟩ (by decide),
    C4_validation_has_no_side_effects.1 ⟨true, true⟩ "image/png" 101
      ⟨0, [], [], []⟩ (by decide) (by decide)⟩

/-- No progress checkpoint of any fixed-checkpoint worker carries a
completed status, a result_url or an error field. -/
theorem compressCheckpoints_fields :
    ∀ u ∈ compressCheckpoints,
      ¬ (Field.status, Val.vStr "completed") ∈ u ∧
        List.lookup Field.error u = none ∧
        List.lookup Field.result_url u = none := by
  decide

/-- The resize checkpoints likewise never carry completion, result or
error fields. -/
theorem resizeCheckpoints_fields :
    ∀ u ∈ resizeCheckpoints,
      ¬ (Field.status, Val.vStr "completed") ∈ u ∧
        List.lookup Field.error u = none ∧
        List.lookup Field.result_url u = none := by
  decide

/-- C5 counterexample.  Mutual exclusion of result_url and error fails on
a reachable record: the broker may redeliver a job whose first run already
completed (at-least-once delivery), and when the re-run fails, the failure
handler merges status and error into the record while the result_url of
the first run survives the merge, so both are present. -/
theorem C5_result_and_error_both_present :
    ReachableResize rerunRec ∧
    rerunRec Field.result_url = some (Val.vStr "cloud/resized/r1") ∧
    rerunRec Field.error = some (Val.vStr "download error") ∧
    rerunRec Field.status = some (Val.vStr "failed") := by
  refine ⟨?_, by decide, by decide, by decide⟩
  exact ReachableResize.rerun _ (ExecOutcome.fail 1 "download error")
    (ReachableResize.rerun _ (ExecOutcome.ok "cloud/resized/r1") ReachableResize.init)

/-- C5 amended.  The completion transition is one atomic hset that writes
status completed, progress 100 and the result locator together (for
compress and resize, every update carrying status "completed" also
carries both); the resulting record has the result locator set and no
error field; and within any single run started from the freshly queued
record, no observable record ever carries result_url and error together.
Across broker redeliveries the exclusion can fail (see the
counterexample). -/
theorem C5_completion_atomic_single_run_exclusive :
    (∀ (osz csz pct fmt : String) (q : Int) (o : ExecOutcome)
        (u : Update), u ∈ compressUpdates osz csz pct fmt q o →
      (Field.status, Val.vStr "completed") ∈ u →
        (Field.progress, Val.vInt 100) ∈ u ∧
          ∃ r, (Field.result_url, Val.vStr r) ∈ u) ∧
    (∀ (o : ExecOutcome) (u : Update), u ∈ resizeUpdates o →
      (Field.status, Val.vStr "completed") ∈ u →
        (Field.progress, Val.vInt 100) ∈ u ∧
          ∃ r, (Field.result_url, Val.vStr r) ∈ u) ∧
    (∀ url : String,
      applyUpdates initRec (resizeUpdates (ExecOutcome.ok url)) Field.status =
        some (Val.vStr "completed") ∧
      applyUpdates initRec (resizeUpdates (ExecOutcome.ok url)) Field.progress =
        some (Val.vInt 100) ∧
      applyUpdates initRec (resizeUpdates (ExecOutcome.ok url)) Field.result_url =
        some (Val.vStr url) ∧
      applyUpdates initRec (resizeUpdates (ExecOutcome.ok url)) Field.error = none) ∧
    (∀ (url osz csz pct fmt : String) (q : Int),
      applyUpdates initRec (compressUpdates osz csz pct fmt q (ExecOutcome.ok url))
          Field.status = some (Val.vStr "completed") ∧
      applyUpdates initRec (compressUpdates osz csz pct fmt q (ExecOutcome.ok url))
          Field.progress = some (Val.vInt 100) ∧
      applyUpdates initRec (compressUpdates osz csz pct fmt q (ExecOutcome.ok url))
          Field.result_url = some (Val.vStr url) ∧
      applyUpdates initRec (compressUpdates osz csz pct fmt q (ExecOutcome.ok url))
          Field.error = none) ∧
    (∀ (o : ExecOutcome) (r : TaskRec), r ∈ traceFrom initRec (resizeUpdates o) →
      r Field.result_url = none ∨ r Field.error = none) ∧
    (∀ (osz csz pct fmt : String) (q : Int) (o : ExecOutcome) (r : TaskRec),
      r ∈ traceFrom initRec (compressUpdates osz csz pct fmt q o) →
        r Field.result_url = none ∨ r Field.error = none) := by
  refine ⟨?_, ?_, ?_, ?_, ?_, ?_⟩
  · intro osz csz pct fmt q o u hu hc
    cases o with
    | ok url =>
      rcases List.mem_append.1 hu with h | h
      · exact absurd hc (compressCheckpoints_fields u h).1
      · rw [List.mem_singleton.1 h]
        exact ⟨by simp [compressDoneUpdate], url, by simp [compressDoneUpdate]⟩
    | fail k msg =>
      rcases List.mem_append.1 hu with h | h
      · exact absurd hc (compressCheckpoints_fields u (List.take_subset _ _ h)).1
      · rw [List.mem_singleton.1 h] at hc
        simp [failUpdate] at hc
  · intro o u hu hc
    cases o with
    | ok url =>
      rcases List.mem_append.1 hu with h | h
      · exact absurd hc (resizeCheckpoints_fields u h).1
      · rw [List.mem_singleton.1 h]
        exact ⟨by simp [completeUpdate], url, by simp [completeUpdate]⟩
    | fail k msg =>
      rcases List.mem_append.1 hu with h | h
      · exact absurd hc (resizeCheckpoints_fields u (List.take_subset _ _ h)).1
      · rw [List.mem_singleton.1 h] at hc
        simp [failUpdate] at hc
  · intro url
    exact ⟨rfl, rfl, rfl, rfl⟩
  · intro url osz csz pct fmt q
    exact ⟨rfl, rfl, rfl, rfl⟩
  · intro o r hr
    cases o with
    | ok url =>
      right
      refine traceFrom_field_none Field.error _ _ rfl ?_ r hr
      intro u hu
      rcases List.mem_append.1 hu with h | h
      · exact (resizeCheckpoints_fields u h).2.1
      · rw [List.mem_singleton.1 h]; rfl
    | fail k msg =>
      left
      refine traceFrom_field_none Field.result_url _ _ rfl ?_ r hr
      intro u hu
      rcases List.mem_append.1 hu with h | h
      · exact (resizeCheckpoints_fields u (List.take_subset _ _ h)).2.2
      · rw [List.mem_singleton.1 h]; rfl
  · intro osz csz pct fmt q o r hr
    cases o with
    | ok url =>
      right
      refine traceFrom_field_none Field.error _ _ rfl ?_ r hr
      intro u hu
      rcases List.mem_append.1 hu with h | h
      · exact (compressCheckpoints_fields u h).2.1
      · rw [List.mem_singleton.1 h]; rfl
    | fail k msg =>
      left
      refine traceFrom_field_none Field.result_url _ _ rfl ?_ r hr
      intro u hu
      rcases List.mem_append.1 hu with h | h
      · exact (compressCheckpoints_fields u (List.take_subset _ _ h)).2.2
      · rw [List.mem_singleton.1 h]; rfl

/-- C5 witness: a concrete successful resize run ends completed with
progress 100, the result url set and no error; the freshly queued record
of its trace has no result and no error. -/
theorem C5_witness :
    applyUpdates initRec (resizeUpdates (ExecOutcome.ok "cloud/resized/w"))
        Field.status = some (Val.vStr "completed") ∧
    applyUpdates initRec (resizeUpdates (ExecOutcome.ok "cloud/resized/w"))
        Field.result_url = some (Val.vStr "cloud/resized/w") ∧
    applyUpdates initRec (resizeUpdates (ExecOutcome.ok "cloud/resized/w"))
        Field.error = none ∧
    (initRec Field.result_url = none ∨ initRec Field.error = none) := by
  refine ⟨(C5_completion_atomic_single_run_exclusive.2.2.1 "cloud/resized/w").1,
    (C5_completion_atomic_single_run_exclusive.2.2.1 "cloud/resized/w").2.2.1,
    (C5_completion_atomic_single_run_exclusive.2.2.1 "cloud/resized/w").2.2.2,
    C5_completion_atomic_single_run_exclusive.2.2.2.2.1 (ExecOutcome.ok "u")
      initRec ?_⟩
  exact List.mem_cons_self _ _

/-- The page-collection loop over an in-bounds index range produces the
contiguous slice of the source document. -/
theorem range'_filterMap_slice (pages : List Nat) :
    ∀ (len a : Nat), a + len ≤ pages.length →
      (List.range' a len).filterMap (fun i => pages[i]?) =
        (pages.drop a).take len := by
  intro len
  induction len with
  | zero => intro a _; simp
  | succ m ih =>
    intro a h
    have ha : a < pages.length := by omega
    rw [List.range'_succ, List.filterMap_cons, List.getElem?_eq_getElem ha,
      ih (a + 1) (by omega)]
    rw [List.drop_eq_getElem_cons ha]
    rfl

/-- C6 counterexample.  The spec scenario extract(start_page = 5,
end_page = 3) on a 5-page document: the range is invalid, yet the second
record of the run's trace has status "processing" — the worker transitions
to processing (progress 10) before it validates the range, so the task
does reach processing. -/
theorem C6_invalid_range_still_processes :
    (extractBadTrace.getD 1 emptyRec) Field.status = some (Val.vStr "processing") ∧
    (extractBadTrace.getD 1 emptyRec) Field.progress = some (Val.vInt 10) ∧
    (extractBadTrace.getLast?.getD emptyRec) Field.status = some (Val.vStr "failed") ∧
    (extractBadTrace.getLast?.getD emptyRec) Field.error =
      some (Val.vStr (extractErrMsg 5 5 3)) := by
  decide

/-- C6 amended.  The page range is 1-based inclusive; given a readable
document the job fails exactly when start_page < 1, end_page >
total_pages, or start_page > end_page — but the invalid range is detected
only inside the worker, after the record has already transitioned to
processing (progress 10), so the task does reach "processing" before
failing.  On a valid range (and successful upload) the task completes and
the output document is exactly pages start_page through end_page in
order. -/
theorem C6_extract_range_semantics :
    ∀ (pages : List Nat) (s e : Int) (uploadOk : Bool) (url dl up : String),
      ((s < 1 ∨ e > (pages.length : Int) ∨ s > e) →
        applyUpdates initRec (extractUpdates (some pages) s e uploadOk url dl up)
            Field.status = some (Val.vStr "failed") ∧
        applyUpdates initRec (extractUpdates (some pages) s e uploadOk url dl up)
            Field.result_url = none ∧
        applyUpdates initRec (extractUpdates (some pages) s e uploadOk url dl up)
            Field.error =
          some (Val.vStr (extractErrMsg (pages.length : Int) s e)) ∧
        (traceFrom initRec (extractUpdates (some pages) s e uploadOk url dl up)).getD
            1 emptyRec Field.status = some (Val.vStr "processing")) ∧
      (¬ (s < 1 ∨ e > (pages.length : Int) ∨ s > e) → uploadOk = true →
        applyUpdates initRec (extractUpdates (some pages) s e uploadOk url dl up)
            Field.status = some (Val.vStr "completed") ∧
        applyUpdates initRec (extractUpdates (some pages) s e uploadOk url dl up)
            Field.result_url = some (Val.vStr url) ∧
        extractedDoc pages s e = (pages.drop (s - 1).toNat).take (e + 1 - s).toNat) := by
  intro pages s e uploadOk url dl up
  constructor
  · intro h
    simp only [extractUpdates]
    rw [if_pos h]
    exact ⟨rfl, rfl, rfl, rfl⟩
  · intro h hup
    subst hup
    simp only [extractUpdates]
    rw [if_neg h, if_pos trivial]
    refine ⟨rfl, rfl, ?_⟩
    push_neg at h
    obtain ⟨h1, h2, h3⟩ := h
    exact range'_filterMap_slice pages (e + 1 - s).toNat (s - 1).toNat (by omega)

/-- C6 witness: extracting pages 2 through 4 of a 5-page document
completes with exactly those pages, and the invalid 5..3 range fails with
the range error while its trace still shows a processing record. -/
theorem C6_witness :
    applyUpdates initRec (extractUpdates (some [11, 12, 13, 14, 15]) 2 4 true "u" "dl" "up")
        Field.status = some (Val.vStr "completed") ∧
    extractedDoc [11, 12, 13, 14, 15] 2 4 = [12, 13, 14] ∧
    applyUpdates initRec (extractUpdates (some [11, 12, 13, 14, 15]) 5 3 true "u" "dl" "up")
        Field.status = some (Val.vStr "failed") := by
  refine ⟨?_, ?_, ?_⟩
  · exact ((C6_extract_range_semantics [11, 12, 13, 14, 15] 2 4 true "u" "dl" "up").2
      (by decide) rfl).1
  · exact (((C6_extract_range_semantics [11, 12, 13, 14, 15] 2 4 true "u" "dl" "up").2
      (by decide) rfl).2.2).trans (by decide)
  · exact ((C6_extract_range_semantics [11, 12, 13, 14, 15] 5 3 true "u" "dl" "up").1
      (by decide)).1

/-- C7 counterexample.  Converting an RGB image to webp — alpha-capable
per the claim — leaves the mode RGB (no alpha channel is added), and
converting an RGBA image to bmp — not alpha-capable per the claim —
leaves the mode RGBA (the alpha channel is not flattened): the worker
special-cases only the JPEG and PNG targets. -/
theorem C7_alpha_handling_counterexample :
    specAlphaCapable "webp" = true ∧
    specModeHasAlpha "RGB" = false ∧
    convertMode "webp" "RGB" = "RGB" ∧
    specAlphaCapable "bmp" = false ∧
    specModeHasAlpha "RGBA" = true ∧
    convertMode "bmp" "RGBA" = "RGBA" := by
  decide

/-- C7 amended.  Alpha handling happens only for two targets: a "jpeg"
target flattens RGBA or palette images to RGB, and a "png" target adds an
alpha channel when the mode is not RGBA; for every other format of the
server's whitelist — jpg, bmp, webp, tiff, gif — the mode reaches the
encoder unchanged (in particular "jpg" is not recognised as JPEG, since
the worker compares the uppercased target against the literal "JPEG"). -/
theorem C7_alpha_handling_characterization : ∀ mode : String,
    (∀ fmt, fmt ∈ (["jpg", "bmp", "webp", "tiff", "gif"] : List String) →
      convertMode fmt mode = mode) ∧
    convertMode "jpeg" mode = (if mode = "RGBA" ∨ mode = "P" then "RGB" else mode) ∧
    convertMode "png" mode = (if mode = "RGBA" then mode else "RGBA") := by
  intro mode
  refine ⟨?_, ?_, ?_⟩
  · intro fmt hfmt
    fin_cases hfmt <;>
      · simp only [convertMode]
        rw [if_neg (fun hc => absurd hc.1 (by decide)),
          if_neg (fun hc => absurd hc.1 (by decide))]
  · simp only [convertMode]
    by_cases hm : mode = "RGBA" ∨ mode = "P"
    · rw [if_pos ⟨by decide, hm⟩, if_pos hm]
    · rw [if_neg (fun hc => hm hc.2), if_neg hm,
        if_neg (fun hc => absurd hc.1 (by decide))]
  · simp only [convertMode]
    by_cases hm : mode = "RGBA"
    · rw [if_neg (fun hc => absurd hc.1 (by decide)),
        if_neg (fun hc => hc.2 hm), if_pos hm]
    · rw [if_neg (fun hc => absurd hc.1 (by decide)),
        if_pos ⟨by decide, hm⟩, if_neg hm]

/-- C7 witness: a transparent RGBA image sent to webp or to jpg keeps its
mode (neither flattening nor alpha insertion happens outside the
jpeg/png special cases). -/
theorem C7_witness :
    convertMode "webp" "RGBA" = "RGBA" ∧ convertMode "jpg" "RGBA" = "RGBA" :=
  ⟨(C7_alpha_handling_characterization "RGBA").1 "webp" (by decide),
    (C7_alpha_handling_characterization "RGBA").1 "jpg" (by decide)⟩

/-- Shifting the step-size sequence by one re-encoding. -/
theorem stepSize_shift (sizeAt : SizeOracle) (q : Int) (sz : ℚ) (j : Nat) :
    stepSize sizeAt q sz (j + 1) =
      stepSize sizeAt (q - 15) (sizeAt (q - 15)) j := by
  cases j with
  | zero =>
    simp [stepSize]
  | succ i =>
    simp only [stepSize]
    congr 1
    push_cast
    ring

/-- Invariant of the retry while-loop, by induction on the attempt
budget: the attempt count is bounded by the budget, quality drops by
exactly 15 per attempt, the final size is the step-size sequence at the
attempt count, the loop only stops early when the stop condition holds,
and every performed attempt was preceded by a failing check. -/
theorem compressLoop_spec (sizeAt : SizeOracle) (t : ℚ) :
    ∀ (n : Nat) (q : Int) (sz : ℚ),
      (compressLoop sizeAt t n q sz).2.2 ≤ n ∧
      (compressLoop sizeAt t n q sz).1 =
        q - 15 * ((compressLoop sizeAt t n q sz).2.2 : Int) ∧
      (compressLoop sizeAt t n q sz).2.1 =
        stepSize sizeAt q sz (compressLoop sizeAt t n q sz).2.2 ∧
      ((compressLoop sizeAt t n q sz).2.2 < n →
        ¬(t < (compressLoop sizeAt t n q sz).2.1 ∧
          30 < (compressLoop sizeAt t n q sz).1)) ∧
      (∀ j < (compressLoop sizeAt t n q sz).2.2,
        t < stepSize sizeAt q sz j ∧ 30 < q - 15 * (j : Int)) := by
  intro n
  induction n with
  | zero =>
    intro q sz
    simp only [compressLoop]
    refine ⟨Nat.le_refl 0, by push_cast; ring, rfl, ?_, ?_⟩
    · intro h
      exact absurd h (Nat.lt_irrefl 0)
    · intro j hj
      exact absurd hj (Nat.not_lt_zero j)
  | succ n ih =>
    intro q sz
    by_cases h : t < sz ∧ 30 < q
    · have hrw : compressLoop sizeAt t (n + 1) q sz =
          ((compressLoop sizeAt t n (q - 15) (sizeAt (q - 15))).1,
            (compressLoop sizeAt t n (q - 15) (sizeAt (q - 15))).2.1,
            (compressLoop sizeAt t n (q - 15) (sizeAt (q - 15))).2.2 + 1) := by
        simp [compressLoop, h]
      obtain ⟨ih1, ih2, ih3, ih4, ih5⟩ := ih (q - 15) (sizeAt (q - 15))
      rw [hrw]
      dsimp only
      refine ⟨by omega, ?_, ?_, ?_, ?_⟩
      · rw [ih2]
        push_cast
        ring
      · rw [ih3, stepSize_shift]
      · intro hlt
        exact ih4 (by omega)
      · intro j hj
        cases j with
        | zero =>
          exact ⟨h.1, by simpa using h.2⟩
        | succ i =>
          have hi := ih5 i (by omega)
          refine ⟨by rw [stepSize_shift]; exact hi.1, ?_⟩
          have h2 := hi.2
          push_cast at h2 ⊢
          linarith
    · have hrw : compressLoop sizeAt t (n + 1) q sz = (q, sz, 0) := by
        simp [compressLoop, h]
      rw [hrw]
      dsimp only
      refine ⟨by omega, by push_cast; ring, rfl, fun _ => h, ?_⟩
      intro j hj
      exact absurd hj (Nat.not_lt_zero j)

/-- C8.  With a target size, the re-compression loop runs with a fixed
budget of 3 attempts, reduces quality by exactly 15 per attempt, and
terminates at the first of: size meeting the target, quality at or below
the floor of 30, or the budget exhausted — every attempt it did perform
was preceded by a size still above target and a quality still above 30,
and if it stopped before the third attempt the stop condition held; the
guarded entry point never performs more than 3 attempts. -/
theorem C8_retry_bounded_steps (sizeAt : SizeOracle) (t : ℚ) (q : Int) (sz : ℚ) :
    (compressLoop sizeAt t 3 q sz).2.2 ≤ 3 ∧
    (compressLoop sizeAt t 3 q sz).1 =
      q - 15 * ((compressLoop sizeAt t 3 q sz).2.2 : Int) ∧
    ((compressLoop sizeAt t 3 q sz).2.2 < 3 →
      ((compressLoop sizeAt t 3 q sz).2.1 ≤ t ∨
        (compressLoop sizeAt t 3 q sz).1 ≤ 30)) ∧
    (∀ j < (compressLoop sizeAt t 3 q sz).2.2,
      t < stepSize sizeAt q sz j ∧ 30 < q - 15 * (j : Int)) ∧
    (∀ tgt : Option ℚ, (targetAdjust sizeAt tgt q sz).2.2 ≤ 3) := by
  obtain ⟨h1, h2, h3, h4, h5⟩ := compressLoop_spec sizeAt t 3 q sz
  refine ⟨h1, h2, ?_, h5, ?_⟩
  · intro hlt
    have := h4 hlt
    push_neg at this
    by_cases hc : t < (compressLoop sizeAt t 3 q sz).2.1
    · exact Or.inr (by linarith [this hc])
    · exact Or.inl (by linarith [not_lt.1 hc])
  · intro tgt
    cases tgt with
    | none => simp [targetAdjust]
    | some t2 =>
      simp only [targetAdjust]
      split_ifs with hc
      · exact (compressLoop_spec sizeAt t2 3 q sz).1
      · simp

/-- C8 witness: an oracle whose output never meets the target: starting
from quality 75 the loop performs all 3 attempts, ends at quality 30, and
the check before the first attempt indeed failed. -/
theorem C8_witness :
    (compressLoop (fun _ => (100 : ℚ)) 50 3 75 200).2.2 ≤ 3 ∧
    (compressLoop (fun _ => (100 : ℚ)) 50 3 75 200).1 =
      75 - 15 * (((compressLoop (fun _ => (100 : ℚ)) 50 3 75 200).2.2 : Nat) : Int) ∧
    (50 : ℚ) < stepSize (fun _ => (100 : ℚ)) 75 200 0 ∧
    (targetAdjust (fun _ => (100 : ℚ)) (some 50) 75 200).2.2 ≤ 3 := by
  have h := C8_retry_bounded_steps (fun _ => (100 : ℚ)) 50 75 200
  refine ⟨h.1, h.2.1, ?_, h.2.2.2.2 (some 50)⟩
  have hk : (compressLoop (fun _ => (100 : ℚ)) 50 3 75 200).2.2 = 3 := by decide
  exact (h.2.2.2.1 0 (by rw [hk]; omega)).1

/-- writtenProgress distributes over concatenation of update sequences. -/
theorem writtenProgress_append (us vs : List Update) :
    writtenProgress (us ++ vs) = writtenProgress us ++ writtenProgress vs :=
  List.filterMap_append us vs _

/-- The shared failure update writes no progress value. -/
theorem writtenProgress_failUpdate (msg : String) :
    writtenProgress [failUpdate msg] = [] := rfl

/-- Truncating a checkpoint sequence and appending the failure update
preserves a monotone, in-range progress sequence. -/
theorem progress_fail_case (cps : List Update) (m : Nat) (msg : String)
    (hchain : List.Chain' (fun a b : Int => a ≤ b) (writtenProgress cps))
    (hbound : ∀ p ∈ writtenProgress cps, 0 ≤ p ∧ p ≤ 100) :
    List.Chain' (fun a b : Int => a ≤ b)
      (writtenProgress (cps.take m ++ [failUpdate msg])) ∧
    ∀ p ∈ writtenProgress (cps.take m ++ [failUpdate msg]), 0 ≤ p ∧ p ≤ 100 := by
  have hsub : List.Sublist (writtenProgress (cps.take m)) (writtenProgress cps) :=
    (List.take_sublist m cps).filterMap _
  have heq : writtenProgress (cps.take m ++ [failUpdate msg]) =
      writtenProgress (cps.take m) := by
    rw [writtenProgress_append, writtenProgress_failUpdate, List.append_nil]
  rw [heq]
  exact ⟨hchain.sublist hsub, fun p hp => hbound p (hsub.subset hp)⟩

/-- The merge progress values are monotone in the number of inserted
sources. -/
theorem mergeProgress_mono (n : Nat) {i j : Nat} (h : i ≤ j) :
    mergeProgress n i ≤ mergeProgress n j := by
  apply Int.floor_le_floor
  have h70 : (0 : ℚ) ≤ 70 / (n : ℚ) := by positivity
  have hc : ((i : ℚ)) ≤ (j : ℚ) := by exact_mod_cast h
  have := mul_le_mul_of_nonneg_right hc h70
  linarith

/-- Every merge progress value is at least the pick-up checkpoint 10. -/
theorem mergeProgress_ge (n i : Nat) : (10 : Int) ≤ mergeProgress n i := by
  rw [mergeProgress, Int.le_floor]
  have : (0 : ℚ) ≤ (i : ℚ) * (70 / (n : ℚ)) := by positivity
  push_cast
  linarith

/-- After at most all n sources, the merge progress value is at most 80. -/
theorem mergeProgress_le (n i : Nat) (h1 : 1 ≤ n) (h2 : i ≤ n) :
    mergeProgress n i ≤ 80 := by
  have hn : (0 : ℚ) < (n : ℚ) := by exact_mod_cast h1
  have hc : ((i : ℚ)) ≤ (n : ℚ) := by exact_mod_cast h2
  have h70 : (0 : ℚ) ≤ 70 / (n : ℚ) := by positivity
  have key : (10 : ℚ) + (i : ℚ) * (70 / (n : ℚ)) ≤ 80 := by
    have hm : (i : ℚ) * (70 / (n : ℚ)) ≤ (n : ℚ) * (70 / (n : ℚ)) :=
      mul_le_mul_of_nonneg_right hc h70
    have he : (n : ℚ) * (70 / (n : ℚ)) = 70 := by field_simp
    linarith
  have hf : mergeProgress n i ≤ ⌊(80 : ℚ)⌋ := Int.floor_le_floor key
  have h80 : ⌊(80 : ℚ)⌋ = 80 := by norm_num
  omega

/-- A map of a locally monotone function over an index range is a
monotone chain. -/
theorem chain'_le_map_range (g : Nat → Int) (m : Nat)
    (hg : ∀ i, i + 1 < m → g i ≤ g (i + 1)) :
    List.Chain' (fun a b : Int => a ≤ b) ((List.range m).map g) := by
  cases m with
  | zero => simp
  | succ m2 =>
    rw [List.chain'_map]
    exact (List.chain'_range_succ (fun a b => g a ≤ g b) m2).2
      (fun i hi => hg i (by omega))

/-- The last written loop value of a mapped index range. -/
theorem mapRange_getLast (g : Nat → Int) (m : Nat) :
    ((List.range (m + 1)).map g).getLast? = some (g m) := by
  have h : List.range (m + 1) = List.range m ++ [m] := by
    simpa using List.range_succ m
  rw [h, List.map_append]
  exact List.getLast?_concat _

/-- Progress writes of a mapped update sequence. -/
theorem wp_map_progUpdate (f : Nat → Int) (l : List Nat) :
    writtenProgress (l.map (fun i => progUpdate (f i))) = l.map f := by
  induction l with
  | nil => rfl
  | cons a l ih =>
    show f a :: writtenProgress (l.map (fun i => progUpdate (f i))) = f a :: l.map f
    rw [ih]

/-- The progress writes of the merge loop are the merge progress values. -/
theorem writtenProgress_mergeLoop (n k : Nat) :
    writtenProgress (mergeLoopUpdates n k) =
      (List.range k).map (fun i => mergeProgress n (i + 1)) :=
  wp_map_progUpdate (fun i => mergeProgress n (i + 1)) (List.range k)

/-- Prepending the pick-up checkpoint folds into one mapped range, since
the merge progress value after zero sources is exactly 10. -/
theorem mergeSeq_cons (n m : Nat) :
    (10 : Int) :: (List.range m).map (fun i => mergeProgress n (i + 1)) =
      (List.range (m + 1)).map (mergeProgress n) := by
  rw [List.range_succ_eq_map, List.map_cons, List.map_map]
  congr 1
  show (10 : Int) = mergeProgress n 0
  rw [mergeProgress]
  norm_num

/-- The progress writes of a successful merge run. -/
theorem mergeWritten_ok (n : Nat) (url : String) (hn : ¬ n < 2) :
    writtenProgress (mergeUpdates n (MergeOutcome.ok url)) =
      (List.range (n + 1)).map (mergeProgress n) ++ [85, 90, 100] := by
  simp only [mergeUpdates]
  rw [if_neg hn, writtenProgress_append, writtenProgress_append,
    writtenProgress_mergeLoop]
  show ((10 : Int) :: (List.range n).map (fun i => mergeProgress n (i + 1))) ++
      [85, 90, 100] = _
  rw [mergeSeq_cons]

/-- The progress writes of a merge run whose k-th download fails. -/
theorem mergeWritten_failDl (n k : Nat) (msg : String) (hn : ¬ n < 2) :
    writtenProgress (mergeUpdates n (MergeOutcome.failDownload k msg)) =
      (List.range (min k (n - 1) + 1)).map (mergeProgress n) := by
  simp only [mergeUpdates]
  rw [if_neg hn, writtenProgress_append, writtenProgress_append,
    writtenProgress_mergeLoop, writtenProgress_failUpdate, List.append_nil]
  show ((10 : Int) :: (List.range (min k (n - 1))).map
      (fun i => mergeProgress n (i + 1))) = _
  rw [mergeSeq_cons]

/-- The progress writes of a merge run whose upload fails. -/
theorem mergeWritten_failUp (n : Nat) (msg : String) (hn : ¬ n < 2) :
    writtenProgress (mergeUpdates n (MergeOutcome.failUpload msg)) =
      (List.range (n + 1)).map (mergeProgress n) ++ [85, 90] := by
  simp only [mergeUpdates]
  rw [if_neg hn, writtenProgress_append, writtenProgress_append,
    writtenProgress_mergeLoop]
  show ((10 : Int) :: (List.range n).map (fun i => mergeProgress n (i + 1))) ++
      [85, 90] = _
  rw [mergeSeq_cons]

/-- Monotone chain and 0–100 bounds for the merge progress list with a
given loop length and numeric tail. -/
theorem merge_progress_list_ok (n m : Nat) (tail : List Int) (h1 : 1 ≤ n)
    (hm : m ≤ n)
    (htail : List.Chain' (fun a b : Int => a ≤ b) tail)
    (htail85 : ∀ y ∈ tail.head?, (85 : Int) ≤ y)
    (htailb : ∀ p ∈ tail, 0 ≤ p ∧ p ≤ 100) :
    List.Chain' (fun a b : Int => a ≤ b)
      ((List.range (m + 1)).map (mergeProgress n) ++ tail) ∧
    ∀ p ∈ (List.range (m + 1)).map (mergeProgress n) ++ tail,
      0 ≤ p ∧ p ≤ 100 := by
  constructor
  · rw [List.chain'_append]
    refine ⟨chain'_le_map_range _ _ (fun i _ => mergeProgress_mono n (by omega)),
      htail, ?_⟩
    intro x hx y hy
    have hx2 : x = mergeProgress n m := by
      rw [mapRange_getLast] at hx
      exact (by simpa using hx : mergeProgress n m = x).symm
    have h85 := htail85 y hy
    have hle := mergeProgress_le n m h1 hm
    omega
  · intro p hp
    rcases List.mem_append.1 hp with h | h
    · obtain ⟨j, hj, rfl⟩ := List.mem_map.1 h
      have hj2 : j ≤ n := by
        have := List.mem_range.1 hj
        omega
      have := mergeProgress_ge n j
      have := mergeProgress_le n j h1 hj2
      omega
    · exact htailb p h

/-- C9.  For every single run of every job type, the progress values
written to the record form an integer sequence within 0–100 that is
monotonically non-decreasing, whatever the outcome and failure point; and
for merge the value written after the i-th of n sources is the
proportional value 10 + i * (70 / n) rounded down (so it grows
proportionally with the count of sources merged so far). -/
theorem C9_progress_monotone_bounded :
    (∀ o : ExecOutcome,
      List.Chain' (fun a b : Int => a ≤ b) (writtenProgress (resizeUpdates o)) ∧
      ∀ p ∈ writtenProgress (resizeUpdates o), 0 ≤ p ∧ p ≤ 100) ∧
    (∀ o : ExecOutcome,
      List.Chain' (fun a b : Int => a ≤ b) (writtenProgress (convertUpdates o)) ∧
      ∀ p ∈ writtenProgress (convertUpdates o), 0 ≤ p ∧ p ≤ 100) ∧
    (∀ o : ExecOutcome,
      List.Chain' (fun a b : Int => a ≤ b)
        (writtenProgress (pdfCompressUpdates o)) ∧
      ∀ p ∈ writtenProgress (pdfCompressUpdates o), 0 ≤ p ∧ p ≤ 100) ∧
    (∀ (osz csz pct fmt : String) (q : Int) (o : ExecOutcome),
      List.Chain' (fun a b : Int => a ≤ b)
        (writtenProgress (compressUpdates osz csz pct fmt q o)) ∧
      ∀ p ∈ writtenProgress (compressUpdates osz csz pct fmt q o),
        0 ≤ p ∧ p ≤ 100) ∧
    (∀ (pdf : Option (List Nat)) (s e : Int) (upOk : Bool) (url dl up : String),
      List.Chain' (fun a b : Int => a ≤ b)
        (writtenProgress (extractUpdates pdf s e upOk url dl up)) ∧
      ∀ p ∈ writtenProgress (extractUpdates pdf s e upOk url dl up),
        0 ≤ p ∧ p ≤ 100) ∧
    (∀ (n : Nat) (o : MergeOutcome),
      List.Chain' (fun a b : Int => a ≤ b) (writtenProgress (mergeUpdates n o)) ∧
      ∀ p ∈ writtenProgress (mergeUpdates n o), 0 ≤ p ∧ p ≤ 100) ∧
    (∀ n i : Nat, 2 ≤ n →
      ((mergeProgress n i : ℚ) ≤ 10 + (i : ℚ) * (70 / (n : ℚ)) ∧
        10 + (i : ℚ) * (70 / (n : ℚ)) - 1 < (mergeProgress n i : ℚ))) := by
  refine ⟨?_, ?_, ?_, ?_, ?_, ?_, ?_⟩
  · intro o
    cases o with
    | ok url =>
      have h : writtenProgress (resizeUpdates (ExecOutcome.ok url)) =
          [10, 30, 50, 70, 85, 100] := rfl
      rw [h]
      exact ⟨by norm_num [List.chain'_cons], by decide⟩
    | fail k msg =>
      exact progress_fail_case resizeCheckpoints (min (max k 1) 5) msg
        (by rw [show writtenProgress resizeCheckpoints = [10, 30, 50, 70, 85] from rfl]
            norm_num [List.chain'_cons])
        (by decide)
  · intro o
    cases o with
    | ok url =>
      have h : writtenProgress (convertUpdates (ExecOutcome.ok url)) =
          [10, 30, 60, 80, 100] := rfl
      rw [h]
      exact ⟨by norm_num [List.chain'_cons], by decide⟩
    | fail k msg =>
      exact progress_fail_case convertCheckpoints (min (max k 1) 4) msg
        (by rw [show writtenProgress convertCheckpoints = [10, 30, 60, 80] from rfl]
            norm_num [List.chain'_cons])
        (by decide)
  · intro o
    cases o with
    | ok url =>
      have h : writtenProgress (pdfCompressUpdates (ExecOutcome.ok url)) =
          [10, 30, 50, 70, 85, 100] := rfl
      rw [h]
      exact ⟨by norm_num [List.chain'_cons], by decide⟩
    | fail k msg =>
      exact progress_fail_case pdfCompressCheckpoints (min (max k 1) 5) msg
        (by rw [show writtenProgress pdfCompressCheckpoints = [10, 30, 50, 70, 85] from rfl]
            norm_num [List.chain'_cons])
        (by decide)
  · intro osz csz pct fmt q o
    cases o with
    | ok url =>
      have h : writtenProgress (compressUpdates osz csz pct fmt q
          (ExecOutcome.ok url)) = [5, 15, 25, 35, 55, 75, 85, 100] := rfl
      rw [h]
      exact ⟨by norm_num [List.chain'_cons], by decide⟩
    | fail k msg =>
      exact progress_fail_case compressCheckpoints (min (max k 1) 7) msg
        (by rw [show writtenProgress compressCheckpoints = [5, 15, 25, 35, 55, 75, 85] from rfl]
            norm_num [List.chain'_cons])
        (by decide)
  · intro pdf s e upOk url dl up
    cases pdf with
    | none =>
      have h : writtenProgress (extractUpdates none s e upOk url dl up) =
          [10] := rfl
      rw [h]
      exact ⟨by norm_num [List.chain'_cons], by decide⟩
    | some pages =>
      simp only [extractUpdates]
      split_ifs with hv hup
      · have h : writtenProgress [procUpdate 10, progUpdate 30,
            failUpdate (extractErrMsg (pages.length : Int) s e)] = [10, 30] := rfl
        rw [h]
        exact ⟨by norm_num [List.chain'_cons], by decide⟩
      · have h : writtenProgress [procUpdate 10, progUpdate 30, progUpdate 50,
            progUpdate 75, progUpdate 90, extractDoneUpdate url s e] =
            [10, 30, 50, 75, 90, 100] := rfl
        rw [h]
        exact ⟨by norm_num [List.chain'_cons], by decide⟩
      · have h : writtenProgress [procUpdate 10, progUpdate 30, progUpdate 50,
            progUpdate 75, progUpdate 90, failUpdate up] =
            [10, 30, 50, 75, 90] := rfl
        rw [h]
        exact ⟨by norm_num [List.chain'_cons], by decide⟩
  · intro n o
    by_cases hn : n < 2
    · cases o with
      | ok url =>
        have h : writtenProgress (mergeUpdates n (MergeOutcome.ok url)) =
            [10] := by
          simp only [mergeUpdates]
          rw [if_pos hn]
          rfl
        rw [h]
        exact ⟨by norm_num [List.chain'_cons], by decide⟩
      | failDownload k msg =>
        have h : writtenProgress (mergeUpdates n
            (MergeOutcome.failDownload k msg)) = [10] := by
          simp only [mergeUpdates]
          rw [if_pos hn]
          rfl
        rw [h]
        exact ⟨by norm_num [List.chain'_cons], by decide⟩
      | failUpload msg =>
        have h : writtenProgress (mergeUpdates n (MergeOutcome.failUpload msg)) =
            [10] := by
          simp only [mergeUpdates]
          rw [if_pos hn]
          rfl
        rw [h]
        exact ⟨by norm_num [List.chain'_cons], by decide⟩
    · have h1 : 1 ≤ n := by omega
      cases o with
      | ok url =>
        rw [mergeWritten_ok n url hn]
        exact merge_progress_list_ok n n [85, 90, 100] h1 (le_refl n)
          (by norm_num [List.chain'_cons]) (by intro y hy; simp at hy; omega)
          (by decide)
      | failDownload k msg =>
        rw [mergeWritten_failDl n k msg hn]
        have := merge_progress_list_ok n (min k (n - 1)) [] h1 (by omega)
          (by norm_num [List.chain'_cons]) (by intro y hy; simp at hy)
          (by intro p hp; simp at hp)
        simpa using this
      | failUpload msg =>
        rw [mergeWritten_failUp n msg hn]
        exact merge_progress_list_ok n n [85, 90] h1 (le_refl n)
          (by norm_num [List.chain'_cons]) (by intro y hy; simp at hy; omega)
          (by decide)
  · intro n i h2
    exact ⟨Int.floor_le _, Int.sub_one_lt_floor _⟩

/-- C9 witness: the merge job on 4 sources with all downloads succeeding
writes a monotone in-range progress sequence, and the proportionality
bracket holds for the second of 4 sources; a compress run failing after
three checkpoints also yields a monotone sequence. -/
theorem C9_witness :
    List.Chain' (fun a b : Int => a ≤ b)
      (writtenProgress (mergeUpdates 4 (MergeOutcome.ok "cloud/pdf/m"))) ∧
    (∀ p ∈ writtenProgress (mergeUpdates 4 (MergeOutcome.ok "cloud/pdf/m")),
      0 ≤ p ∧ p ≤ 100) ∧
    ((mergeProgress 4 2 : ℚ) ≤ 10 + (2 : ℚ) * (70 / (4 : ℚ)) ∧
      10 + (2 : ℚ) * (70 / (4 : ℚ)) - 1 < (mergeProgress 4 2 : ℚ)) ∧
    List.Chain' (fun a b : Int => a ≤ b)
      (writtenProgress (compressUpdates "a" "b" "c" "JPEG" 75
        (ExecOutcome.fail 3 "boom"))) := by
  refine ⟨(C9_progress_monotone_bounded.2.2.2.2.2.1 4
      (MergeOutcome.ok "cloud/pdf/m")).1,
    (C9_progress_monotone_bounded.2.2.2.2.2.1 4 (MergeOutcome.ok "cloud/pdf/m")).2,
    ?_, (C9_progress_monotone_bounded.2.2.2.1 "a" "b" "c" "JPEG" 75
      (ExecOutcome.fail 3 "boom")).1⟩
  have h2 : (2 : Nat) ≤ 4 := by omega
  have := C9_progress_monotone_bounded.2.2.2.2.2.2 4 2 h2
  push_cast at this ⊢
  exact this

/-- C10.  The failure handler shared by every executor writes exactly the
status and error fields: on any prior record, every other field — the
last progress checkpoint, a previously written result locator, any
metadata — keeps its value unchanged through the update; and the failure
paths of the resize, compress and extract runs indeed end with exactly
this update. -/
theorem C10_fail_update_frame :
    (∀ (r : TaskRec) (msg : String) (f : Field),
      ¬ f = Field.status → ¬ f = Field.error →
        hset r (failUpdate msg) f = r f) ∧
    (∀ (k : Nat) (msg : String),
      (resizeUpdates (ExecOutcome.fail k msg)).getLast? = some (failUpdate msg)) ∧
    (∀ (osz csz pct fmt : String) (q : Int) (k : Nat) (msg : String),
      (compressUpdates osz csz pct fmt q (ExecOutcome.fail k msg)).getLast? =
        some (failUpdate msg)) ∧
    (∀ (pages : List Nat) (s e : Int) (upOk : Bool) (url dl up : String),
      (s < 1 ∨ e > (pages.length : Int) ∨ s > e) →
        (extractUpdates (some pages) s e upOk url dl up).getLast? =
          some (failUpdate (extractErrMsg (pages.length : Int) s e))) := by
  refine ⟨?_, ?_, ?_, ?_⟩
  · intro r msg f h1 h2
    cases f with
    | status => exact absurd rfl h1
    | error => exact absurd rfl h2
    | progress => rfl
    | result_url => rfl
    | file_url => rfl
    | extracted_pages => rfl
    | original_size_kb => rfl
    | compressed_size_kb => rfl
    | compression_pct => rfl
    | format => rfl
    | quality => rfl
  · intro k msg
    exact List.getLast?_concat _
  · intro osz csz pct fmt q k msg
    exact List.getLast?_concat _
  · intro pages s e upOk url dl up h
    simp only [extractUpdates]
    rw [if_pos h]
    rfl

/-- C10 witness: failing a resize task whose record holds progress 30
keeps that progress (and the absent result) intact while only status and
error change, and the fail run's last update is the failure update. -/
theorem C10_witness :
    hset (hset initRec (progUpdate 30)) (failUpdate "boom") Field.progress =
      hset initRec (progUpdate 30) Field.progress ∧
    hset (hset initRec (progUpdate 30)) (failUpdate "boom") Field.result_url =
      hset initRec (progUpdate 30) Field.result_url ∧
    (resizeUpdates (ExecOutcome.fail 2 "boom")).getLast? =
      some (failUpdate "boom") :=
  ⟨C10_fail_update_frame.1 (hset initRec (progUpdate 30)) "boom" Field.progress
      (by decide) (by decide),
    C10_fail_update_frame.1 (hset initRec (progUpdate 30)) "boom" Field.result_url
      (by decide) (by decide),
    C10_fail_update_frame.2.1 2 "boom"⟩

end MediaForge
